import Mathlib

/-!
Shallow embedding of the `resolv-conf` parser (src/grammar.rs) together with the
external pieces it depends on: the `std::net` IPv4/IPv6 literal parsers (used via
`str::parse`), Rust UTF-8 validation (`std::str::from_utf8`), and the parts of the
`Config` aggregate whose code (src/config.rs, src/ip.rs) is not present in the
repository snapshot, which are modelled from the spec where noted.

Bytes and Unicode scalar values are both represented as `Nat`.
-/

namespace ResolvConf

/-- Unicode scalar values of a Lean string literal, used to write keyword and
test-input lists compactly.  For ASCII text this also coincides with its UTF-8 bytes. -/
def str (s : String) : List Nat :=
  s.toList.map Char.toNat

/-- `std::net::Ipv4Addr`: four octets. -/
structure Ipv4Addr where
  o0 : Nat
  o1 : Nat
  o2 : Nat
  o3 : Nat
  deriving DecidableEq

/-- `std::net::Ipv6Addr`: eight 16-bit groups. -/
structure Ipv6Addr where
  s0 : Nat
  s1 : Nat
  s2 : Nat
  s3 : Nat
  s4 : Nat
  s5 : Nat
  s6 : Nat
  s7 : Nat
  deriving DecidableEq

/-- `Ipv4Addr::is_unspecified`: the address is `0.0.0.0`. -/
def Ipv4Addr.is_unspecified (ip : Ipv4Addr) : Bool :=
  decide (ip.o0 = 0 ∧ ip.o1 = 0 ∧ ip.o2 = 0 ∧ ip.o3 = 0)

/-- The crate's `Ip` address value (src/ip.rs, declared by src/lib.rs).
The spec says it is a variant over IPv4/IPv6 literals, the IPv6 one carrying an
optional scope that this grammar never exercises. -/
inductive Ip where
  | V4 (addr : Ipv4Addr)
  | V6 (addr : Ipv6Addr) (scope : Option (List Nat))
  deriving DecidableEq

/-- The crate's `Network` value: `{V4(address, mask), V6(address, mask)}`. -/
inductive Network where
  | V4 (ip : Ipv4Addr) (mask : Ipv4Addr)
  | V6 (ip : Ipv6Addr) (mask : Ipv6Addr)
  deriving DecidableEq

/-- `Lookup` tokens of the `lookup` directive. -/
inductive Lookup where
  | File
  | Bind
  | Extra (s : List Nat)
  deriving DecidableEq

/-- `Family` tokens of the `family` directive. -/
inductive Family where
  | Inet4
  | Inet6
  deriving DecidableEq

/-- `ParseError` from src/grammar.rs.  The `Utf8Error` / `AddrParseError` payloads
carry no information used by the grammar (both are opaque causes), so only the
0-based line number is kept. -/
inductive ParseError where
  | InvalidUtf8 (line : Nat)
  | InvalidValue (line : Nat)
  | InvalidOptionValue (line : Nat)
  | InvalidOption (line : Nat)
  | InvalidDirective (line : Nat)
  | InvalidIp (line : Nat)
  | ExtraData (line : Nat)
  deriving DecidableEq

/-- The `Config` aggregate (src/config.rs, not under src/).
Modelled from the spec: list fields default empty, option flags default false;
the numeric defaults are supplied by the out-of-scope `Config` type, so `0` is
used here (no claim depends on their concrete values). -/
structure Config where
  nameservers : List Ip := []
  domain : Option (List Nat) := none
  search : List (List Nat) := []
  sortlist : List Network := []
  debug : Bool := false
  ndots : Nat := 0
  timeout : Nat := 0
  attempts : Nat := 0
  rotate : Bool := false
  no_check_names : Bool := false
  inet6 : Bool := false
  ip6_bytestring : Bool := false
  ip6_dotint : Bool := false
  edns0 : Bool := false
  single_request : Bool := false
  single_request_reopen : Bool := false
  no_reload : Bool := false
  trust_ad : Bool := false
  no_tld_query : Bool := false
  use_vc : Bool := false
  lookup : List Lookup := []
  family : List Family := []
  deriving DecidableEq

/-- `Config::default()`. -/
def Config.default : Config := {}

/-! ## `std::net` literal parsers (`core::net::parser`), state-passing over `List Nat` -/

/-- `char::to_digit`: decimal digits, then lowercase, then uppercase letters,
valid when the digit value is below the radix. -/
def digitValue (radix : Nat) (c : Nat) : Option Nat :=
  let d : Option Nat :=
    if 48 ≤ c ∧ c ≤ 57 then some (c - 48)
    else if 97 ≤ c ∧ c ≤ 122 then some (c - 87)
    else if 65 ≤ c ∧ c ≤ 90 then some (c - 55)
    else none
  match d with
  | some v => if v < radix then some v else none
  | none => none

/-- The digit-reading loop of `Parser::read_number`.  `bound` is one past the
maximum of the Rust integer type (`256` for `u8`, `65536` for `u16`); the
`checked_mul`/`checked_add` pair fails exactly when the accumulated value would
reach `bound`.  Returns the value, the digit count and the unconsumed input. -/
def readNumberLoop (radix bound : Nat) (maxDigits : Option Nat) :
    List Nat → Nat → Nat → Option (Nat × Nat × List Nat)
  | [], result, count => some (result, count, [])
  | c :: rest, result, count =>
    match digitValue radix c with
    | none => some (result, count, c :: rest)
    | some d =>
      let r := result * radix + d
      if bound ≤ r then none
      else
        match maxDigits with
        | some m =>
          if m < count + 1 then none
          else readNumberLoop radix bound maxDigits rest r (count + 1)
        | none => readNumberLoop radix bound maxDigits rest r (count + 1)

/-- `Parser::read_number`: at least one digit, and unless `allowZeroPrefix`,
no leading zero on a multi-digit number. -/
def readNumber (radix : Nat) (maxDigits : Option Nat) (allowZeroPrefix : Bool) (bound : Nat)
    (s : List Nat) : Option (Nat × List Nat) :=
  let hasLeadingZero : Bool :=
    match s with
    | 48 :: _ => true
    | _ => false
  match readNumberLoop radix bound maxDigits s 0 0 with
  | none => none
  | some (result, count, rest) =>
    if count = 0 then none
    else if !allowZeroPrefix && hasLeadingZero && decide (1 < count) then none
    else some (result, rest)

/-- `Parser::read_separator`: for every group after the first, the separator
character must precede the inner parse. -/
def readSeparator {α : Type} (c : Nat) (i : Nat) (inner : List Nat → Option (α × List Nat))
    (s : List Nat) : Option (α × List Nat) :=
  if i = 0 then inner s
  else
    match s with
    | x :: rest => if x = c then inner rest else none
    | [] => none

/-- `Parser::read_ipv4_addr`: four dot-separated decimal groups, each one to
three digits with no leading zero, each below 256. -/
def readIpv4Addr (s : List Nat) : Option (Ipv4Addr × List Nat) := do
  let (a, s) ← readNumber 10 (some 3) false 256 s
  let (b, s) ← readSeparator 46 1 (readNumber 10 (some 3) false 256) s
  let (c, s) ← readSeparator 46 2 (readNumber 10 (some 3) false 256) s
  let (d, s) ← readSeparator 46 3 (readNumber 10 (some 3) false 256) s
  some (⟨a, b, c, d⟩, s)

/-- `Ipv4Addr::from_str`: the whole input must be consumed. -/
def parseIpv4 (s : List Nat) : Option Ipv4Addr :=
  match readIpv4Addr s with
  | some (ip, []) => some ip
  | _ => none

/-- `read_groups` from `Parser::read_ipv6_addr`: reads up to `n` further
colon-separated 16-bit hex groups (`i` is the index of the next group), with a
trailing embedded IPv4 address allowed while at least two slots remain.
Returns the groups read, whether an IPv4 tail was read, and the rest. -/
def readGroups : Nat → Nat → List Nat → List Nat × Bool × List Nat
  | 0, _, s => ([], false, s)
  | n + 1, i, s =>
    let v4try : Option (Ipv4Addr × List Nat) :=
      if 1 ≤ n then readSeparator 58 i readIpv4Addr s else none
    match v4try with
    | some (v4, rest) => ([v4.o0 * 256 + v4.o1, v4.o2 * 256 + v4.o3], true, rest)
    | none =>
      match readSeparator 58 i (readNumber 16 (some 4) true 65536) s with
      | some (g, rest) =>
        match readGroups n (i + 1) rest with
        | (gs, b, rest2) => (g :: gs, b, rest2)
      | none => ([], false, s)

/-- Assemble an `Ipv6Addr` from a list of (at most eight) groups, zero-padded. -/
def ipv6OfGroups (l : List Nat) : Ipv6Addr :=
  ⟨l.getD 0 0, l.getD 1 0, l.getD 2 0, l.getD 3 0, l.getD 4 0, l.getD 5 0, l.getD 6 0, l.getD 7 0⟩

/-- `Parser::read_ipv6_addr`: a head run of groups; eight groups is a complete
address, otherwise (no IPv4 tail allowed before `::`) a literal `::` followed by
a tail run, the elided middle filled with zero groups. -/
def readIpv6Addr (s : List Nat) : Option (Ipv6Addr × List Nat) :=
  match readGroups 8 0 s with
  | (head, headV4, s1) =>
    if head.length = 8 then some (ipv6OfGroups head, s1)
    else if headV4 then none
    else
      match s1 with
      | 58 :: 58 :: s2 =>
        match readGroups (8 - (head.length + 1)) 0 s2 with
        | (tail, _, s3) =>
          some (ipv6OfGroups (head ++ List.replicate (8 - head.length - tail.length) 0 ++ tail), s3)
      | _ => none

/-- `Ipv6Addr::from_str`: the whole input must be consumed. -/
def parseIpv6 (s : List Nat) : Option Ipv6Addr :=
  match readIpv6Addr s with
  | some (ip, []) => some ip
  | _ => none

/-! ## Network/mask parsing (src/grammar.rs, `ip_v4_netw` / `ip_v6_netw`) -/

/-- `val.splitn(2, sep)`: the part before the first separator, and optionally
everything after it (later separators included). -/
def splitFirst (sep : Nat) : List Nat → List Nat × Option (List Nat)
  | [] => ([], none)
  | c :: rest =>
    if c = sep then ([], some rest)
    else
      match splitFirst sep rest with
      | (pre, post) => (c :: pre, post)

/-- `ip_v4_netw` (src/grammar.rs lines 65-107).  With an explicit mask, the
source's "valid mask" check folds the *address* octets into `value` and tests
`value == 0 || (value & !value != 0)`; since the address octet sum is at most
1020, the `u32` complement `!value` is `2^32 - 1 - value`, and `value & !value`
is always zero.  Without a mask, one is inferred from the trailing zero octets. -/
def ip_v4_netw (val : List Nat) : Option Network :=
  let p := splitFirst 47 val
  match parseIpv4 p.1 with
  | none => none
  | some ip =>
    if ip.is_unspecified then none
    else
      match p.2 with
      | some ms =>
        match parseIpv4 ms with
        | none => none
        | some mask =>
          let value := ip.o0 + ip.o1 + ip.o2 + ip.o3
          if value = 0 ∨ Nat.land value (2 ^ 32 - 1 - value) ≠ 0 then none
          else some (.V4 ip mask)
      | none =>
        let mask : Ipv4Addr :=
          if ip.o3 = 0 then
            if ip.o2 = 0 then
              if ip.o1 = 0 then ⟨255, 0, 0, 0⟩
              else ⟨255, 255, 0, 0⟩
            else ⟨255, 255, 255, 0⟩
          else ⟨255, 255, 255, 255⟩
        some (.V4 ip mask)

/-- `ip_v6_netw` (src/grammar.rs lines 109-131): an explicit mask is accepted
verbatim whenever it parses; with no mask the all-ones 128-bit mask is used. -/
def ip_v6_netw (val : List Nat) : Option Network :=
  let p := splitFirst 47 val
  match parseIpv6 p.1 with
  | none => none
  | some ip =>
    match p.2 with
    | some ms =>
      match parseIpv6 ms with
      | none => none
      | some mask => some (.V6 ip mask)
    | none => some (.V6 ip ⟨65535, 65535, 65535, 65535, 65535, 65535, 65535, 65535⟩)

/-! ## Line handling (src/grammar.rs, `parse`) -/

/-- Rust `std::str::from_utf8` validity, as a decoder to Unicode scalar values:
ASCII, two-byte (C2-DF), three-byte (E0-EF, surrogates and overlongs excluded)
and four-byte (F0-F4, values above U+10FFFF and overlongs excluded) sequences. -/
def decodeUtf8 : List Nat → Option (List Nat)
  | [] => some []
  | b :: rest =>
    if b ≤ 127 then
      match decodeUtf8 rest with
      | some cs => some (b :: cs)
      | none => none
    else if 194 ≤ b ∧ b ≤ 223 then
      match rest with
      | b1 :: rest1 =>
        if 128 ≤ b1 ∧ b1 ≤ 191 then
          match decodeUtf8 rest1 with
          | some cs => some (((b - 192) * 64 + (b1 - 128)) :: cs)
          | none => none
        else none
      | [] => none
    else if 224 ≤ b ∧ b ≤ 239 then
      match rest with
      | b1 :: b2 :: rest2 =>
        let lo1 := if b = 224 then 160 else 128
        let hi1 := if b = 237 then 159 else 191
        if lo1 ≤ b1 ∧ b1 ≤ hi1 ∧ 128 ≤ b2 ∧ b2 ≤ 191 then
          match decodeUtf8 rest2 with
          | some cs => some (((b - 224) * 4096 + (b1 - 128) * 64 + (b2 - 128)) :: cs)
          | none => none
        else none
      | _ => none
    else if 240 ≤ b ∧ b ≤ 244 then
      match rest with
      | b1 :: b2 :: b3 :: rest3 =>
        let lo1 := if b = 240 then 144 else 128
        let hi1 := if b = 244 then 143 else 191
        if lo1 ≤ b1 ∧ b1 ≤ hi1 ∧ 128 ≤ b2 ∧ b2 ≤ 191 ∧ 128 ≤ b3 ∧ b3 ≤ 191 then
          match decodeUtf8 rest3 with
          | some cs =>
            some (((b - 240) * 262144 + (b1 - 128) * 4096 + (b2 - 128) * 64 + (b3 - 128)) :: cs)
          | none => none
        else none
      | _ => none
    else none

/-- The full-comment scan of `parse` (src/grammar.rs lines 136-144): walk the
line's bytes; at the first byte that is neither tab nor space, the line is a
comment exactly when that byte is `;` or `#`. -/
def isCommentLine : List Nat → Bool
  | [] => false
  | c :: rest =>
    if c = 9 ∨ c = 32 then isCommentLine rest
    else decide (c = 59 ∨ c = 35)

/-- `char::is_whitespace` (the Unicode `White_Space` property), which is what
`str::split_whitespace` splits on. -/
def isRustWhitespace (c : Nat) : Bool :=
  decide (c = 9 ∨ c = 10 ∨ c = 11 ∨ c = 12 ∨ c = 13 ∨ c = 32 ∨ c = 133 ∨ c = 160 ∨
    c = 5760 ∨ (8192 ≤ c ∧ c ≤ 8202) ∨ c = 8232 ∨ c = 8233 ∨ c = 8239 ∨ c = 8287 ∨ c = 12288)

/-- Accumulator worker for `splitWhitespace`. -/
def splitWsAux : List Nat → List Nat → List (List Nat)
  | [], acc => if acc = [] then [] else [acc.reverse]
  | c :: rest, acc =>
    if isRustWhitespace c then
      if acc = [] then splitWsAux rest []
      else acc.reverse :: splitWsAux rest []
    else splitWsAux rest (c :: acc)

/-- `str::split_whitespace`: maximal nonempty runs of non-whitespace characters. -/
def splitWhitespace (s : List Nat) : List (List Nat) :=
  splitWsAux s []

/-- `split([';', '#']).next()`: the prefix of the line before any inline-comment
character.  (The source's `ok_or(InvalidValue)` on this `next()` can never fire:
`split` always yields at least one fragment.) -/
def stripInlineComment (s : List Nat) : List Nat :=
  s.takeWhile (fun c => decide (c ≠ 59 ∧ c ≠ 35))

/-! ## Directive handlers (src/grammar.rs, `parse`) -/

/-- Modelled from the spec: the `Ip` value's string parse lives in src/ip.rs,
which is not under src/.  The spec says an address value is a variant over
IPv4/IPv6 literals with an optional scope not exercised by this grammar, so the
IPv4 literal form is tried first, then the IPv6 one. -/
def parseIp (s : List Nat) : Option Ip :=
  match parseIpv4 s with
  | some v4 => some (.V4 v4)
  | none =>
    match parseIpv6 s with
    | some v6 => some (.V6 v6 none)
    | none => none

/-- Modelled from the spec: `ndots`, `timeout` and `attempts` are unsigned
integers; their concrete width lives in src/config.rs, which is not under src/,
so Rust's unsigned `from_str` shape (an optional leading plus sign followed by
one or more decimal digits) is modelled without an overflow bound. -/
def parseUnsigned (s : List Nat) : Option Nat :=
  let digits :=
    match s with
    | 43 :: rest => rest
    | l => l
  if digits = [] then none
  else if digits.all (fun c => decide (48 ≤ c ∧ c ≤ 57)) then
    some (digits.foldl (fun a c => a * 10 + (c - 48)) 0)
  else none

/-- One arm of the `options` match (src/grammar.rs lines 198-224).  The Rust
match is on the pair `(key, value)`; for `ndots`/`timeout`/`attempts` the arm
requires `Some` value, so a missing value falls through to the catch-all
`InvalidOption` arm. -/
def applyOption (cfg : Config) (line : Nat) (key : List Nat) (value : Option (List Nat)) :
    Except ParseError Config :=
  if key = str (r"debug") then .ok { cfg with debug := true }
  else if key = str (r"ndots") then
    match value with
    | some x =>
      match parseUnsigned x with
      | some n => .ok { cfg with ndots := n }
      | none => .error (.InvalidOptionValue line)
    | none => .error (.InvalidOption line)
  else if key = str (r"timeout") then
    match value with
    | some x =>
      match parseUnsigned x with
      | some n => .ok { cfg with timeout := n }
      | none => .error (.InvalidOptionValue line)
    | none => .error (.InvalidOption line)
  else if key = str (r"attempts") then
    match value with
    | some x =>
      match parseUnsigned x with
      | some n => .ok { cfg with attempts := n }
      | none => .error (.InvalidOptionValue line)
    | none => .error (.InvalidOption line)
  else if key = str (r"rotate") then .ok { cfg with rotate := true }
  else if key = str (r"no-check-names") then .ok { cfg with no_check_names := true }
  else if key = str (r"inet6") then .ok { cfg with inet6 := true }
  else if key = str (r"ip6-bytestring") then .ok { cfg with ip6_bytestring := true }
  else if key = str (r"ip6-dotint") then .ok { cfg with ip6_dotint := true }
  else if key = str (r"no-ip6-dotint") then .ok { cfg with ip6_dotint := false }
  else if key = str (r"edns0") then .ok { cfg with edns0 := true }
  else if key = str (r"single-request") then .ok { cfg with single_request := true }
  else if key = str (r"single-request-reopen") then .ok { cfg with single_request_reopen := true }
  else if key = str (r"no-reload") then .ok { cfg with no_reload := true }
  else if key = str (r"trust-ad") then .ok { cfg with trust_ad := true }
  else if key = str (r"no-tld-query") then .ok { cfg with no_tld_query := true }
  else if key = str (r"use-vc") then .ok { cfg with use_vc := true }
  else .error (.InvalidOption line)

/-- The `options` token loop (src/grammar.rs lines 190-225).  Each token is cut
with `splitn(2, ':')`; that yields at most two fragments, so the source's check
of a third fragment (returning `ExtraData`) can never fire and is not part of
the reachable behavior. -/
def processOptions (cfg : Config) (line : Nat) : List (List Nat) → Except ParseError Config
  | [] => .ok cfg
  | w :: ws =>
    let p := splitFirst 58 w
    match applyOption cfg line p.1 p.2 with
    | .ok cfg2 => processOptions cfg2 line ws
    | .error e => .error e

/-- The `sortlist` token loop (src/grammar.rs lines 183-188): IPv4-network
parse, else IPv6-network parse, else `InvalidIp`. -/
def processSortlist (cfg : Config) (line : Nat) : List (List Nat) → Except ParseError Config
  | [] => .ok cfg
  | w :: ws =>
    match ip_v4_netw w with
    | some netw => processSortlist { cfg with sortlist := cfg.sortlist ++ [netw] } line ws
    | none =>
      match ip_v6_netw w with
      | some netw => processSortlist { cfg with sortlist := cfg.sortlist ++ [netw] } line ws
      | none => .error (.InvalidIp line)

/-- The `lookup` token loop (src/grammar.rs lines 228-234): never fails. -/
def processLookup (cfg : Config) : List (List Nat) → Config
  | [] => cfg
  | w :: ws =>
    if w = str (r"file") then processLookup { cfg with lookup := cfg.lookup ++ [.File] } ws
    else if w = str (r"bind") then processLookup { cfg with lookup := cfg.lookup ++ [.Bind] } ws
    else processLookup { cfg with lookup := cfg.lookup ++ [.Extra w] } ws

/-- The `family` token loop (src/grammar.rs lines 237-243). -/
def processFamily (cfg : Config) (line : Nat) : List (List Nat) → Except ParseError Config
  | [] => .ok cfg
  | w :: ws =>
    if w = str (r"inet4") then processFamily { cfg with family := cfg.family ++ [.Inet4] } line ws
    else if w = str (r"inet6") then
      processFamily { cfg with family := cfg.family ++ [.Inet6] } line ws
    else .error (.InvalidValue line)

/-- The keyword dispatch of `parse` (src/grammar.rs lines 157-246).
`set_domain` / `set_search` live in src/config.rs, not under src/; modelled
from the spec: `domain` is overwritten, `search` is replaced wholesale.  The
`domain` token's `parse::<String>` is infallible, so any present token is
accepted. -/
def processDirective (cfg : Config) (line : Nat) (keyword : List Nat) (ws : List (List Nat)) :
    Except ParseError Config :=
  if keyword = str (r"nameserver") then
    match ws with
    | [] => .error (.InvalidValue line)
    | addr :: rest =>
      match parseIp addr with
      | none => .error (.InvalidIp line)
      | some ip =>
        if rest = [] then .ok { cfg with nameservers := cfg.nameservers ++ [ip] }
        else .error (.ExtraData line)
  else if keyword = str (r"domain") then
    match ws with
    | [] => .error (.InvalidValue line)
    | d :: rest =>
      if rest = [] then .ok { cfg with domain := some d }
      else .error (.ExtraData line)
  else if keyword = str (r"search") then
    .ok { cfg with search := ws }
  else if keyword = str (r"sortlist") then
    processSortlist { cfg with sortlist := [] } line ws
  else if keyword = str (r"options") then
    processOptions cfg line ws
  else if keyword = str (r"lookup") then
    .ok (processLookup cfg ws)
  else if keyword = str (r"family") then
    processFamily cfg line ws
  else .error (.InvalidDirective line)

/-- One iteration of the line loop of `parse` (src/grammar.rs lines 135-246):
full-comment lines are skipped before UTF-8 validation; otherwise the line must
decode, is stripped of its inline comment, split into tokens, and dispatched
(a line with no tokens is skipped). -/
def processLine (cfg : Config) (line : Nat) (content : List Nat) : Except ParseError Config :=
  if isCommentLine content then .ok cfg
  else
    match decodeUtf8 content with
    | none => .error (.InvalidUtf8 line)
    | some chars =>
      match splitWhitespace (stripInlineComment chars) with
      | [] => .ok cfg
      | keyword :: ws => processDirective cfg line keyword ws

/-- `bytes.split(|&x| x == b'\n')`: slice split, which always yields at least
one (possibly empty) segment and yields a trailing empty segment for a trailing
separator. -/
def splitLines : List Nat → List (List Nat)
  | [] => [[]]
  | b :: rest =>
    if b = 10 then [] :: splitLines rest
    else
      match splitLines rest with
      | [] => [[b]]
      | l :: ls => (b :: l) :: ls

/-- The enumerated line loop of `parse`: fail-fast over the lines in order. -/
def parseLines (cfg : Config) (line : Nat) : List (List Nat) → Except ParseError Config
  | [] => .ok cfg
  | l :: ls =>
    match processLine cfg line l with
    | .ok cfg2 => parseLines cfg2 (line + 1) ls
    | .error e => .error e

/-- `parse` (src/grammar.rs lines 133-250). -/
def parse (bytes : List Nat) : Except ParseError Config :=
  parseLines Config.default 0 (splitLines bytes)

/-! ## Spec-side formulations, for comparison with the source definitions -/

/-- Follows the spec's words for netmask inference: "count how many trailing
octets equal exactly 0", working from the last octet backward. -/
def specTrailingZeroOctets (ip : Ipv4Addr) : Nat :=
  if ip.o3 ≠ 0 then 0
  else if ip.o2 ≠ 0 then 1
  else if ip.o1 ≠ 0 then 2
  else 3

/-- Follows the spec's words for netmask inference: the map
`{0 -> /32, 1 -> /24, 2 -> /16, 3 -> /8}`. -/
def specMaskOfCount : Nat → Ipv4Addr
  | 0 => ⟨255, 255, 255, 255⟩
  | 1 => ⟨255, 255, 255, 0⟩
  | 2 => ⟨255, 255, 0, 0⟩
  | _ => ⟨255, 0, 0, 0⟩

/-! ## Helper lemmas -/

/-- `splitn(2, sep)` on input without the separator yields the input and no tail. -/
theorem splitFirst_not_mem (sep : Nat) : ∀ l : List Nat, sep ∉ l → splitFirst sep l = (l, none) := by
  intro l
  induction l with
  | nil => intro _; rfl
  | cons c rest ih =>
    intro h
    have hc : ¬c = sep := fun hc => h (by simp [hc])
    have hr : sep ∉ rest := fun hm => h (List.mem_cons_of_mem _ hm)
    simp only [splitFirst, if_neg hc, ih hr]

/-- `splitn(2, sep)` cuts at the first separator; everything after it, later
separators included, is the tail. -/
theorem splitFirst_append (sep : Nat) :
    ∀ l r : List Nat, sep ∉ l → splitFirst sep (l ++ sep :: r) = (l, some r) := by
  intro l
  induction l with
  | nil => intro r _; simp [splitFirst]
  | cons c rest ih =>
    intro r h
    have hc : ¬c = sep := fun hc => h (by simp [hc])
    have hr : sep ∉ rest := fun hm => h (List.mem_cons_of_mem _ hm)
    simp only [List.cons_append, splitFirst, if_neg hc, List.append_eq, ih r hr]

/-- Slice split always yields at least one segment. -/
theorem splitLines_ne_nil : ∀ bs : List Nat, splitLines bs ≠ [] := by
  intro bs
  induction bs with
  | nil => simp [splitLines]
  | cons b rest ih =>
    by_cases hb : b = 10
    · simp [splitLines, hb]
    · simp only [splitLines, if_neg hb]
      cases h : splitLines rest with
      | nil => simp
      | cons l ls => simp

/-- A trailing newline byte contributes exactly one trailing empty segment. -/
theorem splitLines_append_newline :
    ∀ bs : List Nat, splitLines (bs ++ [10]) = splitLines bs ++ [[]] := by
  intro bs
  induction bs with
  | nil => rfl
  | cons b rest ih =>
    by_cases hb : b = 10
    · show splitLines (b :: (rest ++ [10])) = splitLines (b :: rest) ++ [[]]
      simp only [splitLines, if_pos hb, ih, List.cons_append]
    · show splitLines (b :: (rest ++ [10])) = splitLines (b :: rest) ++ [[]]
      simp only [splitLines, if_neg hb, ih]
      cases h : splitLines rest with
      | nil => exact absurd h (splitLines_ne_nil rest)
      | cons l ls => simp

/-- A trailing empty line is skipped and changes nothing. -/
theorem parseLines_append_nil : ∀ (ls : List (List Nat)) (cfg : Config) (line : Nat),
    parseLines cfg line (ls ++ [[]]) = parseLines cfg line ls := by
  intro ls
  induction ls with
  | nil => intro cfg line; rfl
  | cons l ls ih =>
    intro cfg line
    simp only [List.cons_append, parseLines]
    cases processLine cfg line l with
    | ok cfg2 => exact ih cfg2 (line + 1)
    | error e => rfl

/-- The `lookup` loop appends the per-token mapping of its tokens, in order. -/
theorem processLookup_spec : ∀ (ws : List (List Nat)) (cfg : Config),
    processLookup cfg ws =
      { cfg with lookup := cfg.lookup ++ ws.map (fun w =>
          if w = str (r"file") then Lookup.File
          else if w = str (r"bind") then Lookup.Bind
          else Lookup.Extra w) } := by
  intro ws
  induction ws with
  | nil => intro cfg; simp [processLookup]
  | cons w ws ih =>
    intro cfg
    simp only [processLookup, List.map_cons]
    split_ifs with hf hb
    · rw [ih]; simp
    · rw [ih]; simp
    · rw [ih]; simp

/-- The `family` loop on recognized tokens appends their mapping, in order. -/
theorem processFamily_ok : ∀ (ws : List (List Nat)) (cfg : Config) (line : Nat),
    (∀ w ∈ ws, w = str (r"inet4") ∨ w = str (r"inet6")) →
    processFamily cfg line ws =
      .ok { cfg with family := cfg.family ++ ws.map (fun w =>
        if w = str (r"inet4") then Family.Inet4 else Family.Inet6) } := by
  intro ws
  induction ws with
  | nil => intro cfg line _; simp [processFamily]
  | cons w ws ih =>
    intro cfg line h
    have hrest : ∀ u ∈ ws, u = str (r"inet4") ∨ u = str (r"inet6") :=
      fun u hu => h u (List.mem_cons_of_mem _ hu)
    simp only [processFamily, List.map_cons]
    rcases h w (List.mem_cons_self w ws) with hw | hw
    · subst hw
      rw [if_pos rfl, if_pos rfl, ih _ _ hrest]
      simp
    · subst hw
      rw [if_neg (by decide : ¬str (r"inet6") = str (r"inet4")),
        if_neg (by decide : ¬str (r"inet6") = str (r"inet4")), if_pos rfl, ih _ _ hrest]
      simp

/-- The `family` loop fails with `InvalidValue` at the first unrecognized token. -/
theorem processFamily_err :
    ∀ (pre : List (List Nat)) (cfg : Config) (line : Nat) (w : List Nat)
      (post : List (List Nat)),
    (∀ u ∈ pre, u = str (r"inet4") ∨ u = str (r"inet6")) →
    w ≠ str (r"inet4") → w ≠ str (r"inet6") →
    processFamily cfg line (pre ++ w :: post) = .error (.InvalidValue line) := by
  intro pre
  induction pre with
  | nil =>
    intro cfg line w post _ h4 h6
    simp only [List.nil_append, processFamily, if_neg h4, if_neg h6]
  | cons u pre ih =>
    intro cfg line w post h h4 h6
    have hrest : ∀ v ∈ pre, v = str (r"inet4") ∨ v = str (r"inet6") :=
      fun v hv => h v (List.mem_cons_of_mem _ hv)
    rcases h u (List.mem_cons_self u pre) with hu | hu
    · subst hu
      simp only [List.cons_append, processFamily, if_pos rfl]
      exact ih _ _ _ _ hrest h4 h6
    · subst hu
      simp only [List.cons_append, processFamily,
        if_neg (by decide : ¬str (r"inet6") = str (r"inet4")), if_pos rfl]
      exact ih _ _ _ _ hrest h4 h6

set_option maxHeartbeats 1000000 in
/-- No arm of the `options` match produces `ExtraData`. -/
theorem applyOption_no_extra (cfg : Config) (line : Nat) (key : List Nat)
    (value : Option (List Nat)) (l : Nat) :
    applyOption cfg line key value ≠ .error (.ExtraData l) := by
  intro hc
  unfold applyOption at hc
  by_cases h1 : key = str (r"debug")
  · rw [if_pos h1] at hc; simp at hc
  rw [if_neg h1] at hc
  by_cases h2 : key = str (r"ndots")
  · rw [if_pos h2] at hc
    cases value with
    | none => simp at hc
    | some x =>
      dsimp only [] at hc
      cases hx : parseUnsigned x with
      | none => rw [hx] at hc; simp at hc
      | some n => rw [hx] at hc; simp at hc
  rw [if_neg h2] at hc
  by_cases h3 : key = str (r"timeout")
  · rw [if_pos h3] at hc
    cases value with
    | none => simp at hc
    | some x =>
      dsimp only [] at hc
      cases hx : parseUnsigned x with
      | none => rw [hx] at hc; simp at hc
      | some n => rw [hx] at hc; simp at hc
  rw [if_neg h3] at hc
  by_cases h4 : key = str (r"attempts")
  · rw [if_pos h4] at hc
    cases value with
    | none => simp at hc
    | some x =>
      dsimp only [] at hc
      cases hx : parseUnsigned x with
      | none => rw [hx] at hc; simp at hc
      | some n => rw [hx] at hc; simp at hc
  rw [if_neg h4] at hc
  by_cases h5 : key = str (r"rotate")
  · rw [if_pos h5] at hc; simp at hc
  rw [if_neg h5] at hc
  by_cases h6 : key = str (r"no-check-names")
  · rw [if_pos h6] at hc; simp at hc
  rw [if_neg h6] at hc
  by_cases h7 : key = str (r"inet6")
  · rw [if_pos h7] at hc; simp at hc
  rw [if_neg h7] at hc
  by_cases h8 : key = str (r"ip6-bytestring")
  · rw [if_pos h8] at hc; simp at hc
  rw [if_neg h8] at hc
  by_cases h9 : key = str (r"ip6-dotint")
  · rw [if_pos h9] at hc; simp at hc
  rw [if_neg h9] at hc
  by_cases h10 : key = str (r"no-ip6-dotint")
  · rw [if_pos h10] at hc; simp at hc
  rw [if_neg h10] at hc
  by_cases h11 : key = str (r"edns0")
  · rw [if_pos h11] at hc; simp at hc
  rw [if_neg h11] at hc
  by_cases h12 : key = str (r"single-request")
  · rw [if_pos h12] at hc; simp at hc
  rw [if_neg h12] at hc
  by_cases h13 : key = str (r"single-request-reopen")
  · rw [if_pos h13] at hc; simp at hc
  rw [if_neg h13] at hc
  by_cases h14 : key = str (r"no-reload")
  · rw [if_pos h14] at hc; simp at hc
  rw [if_neg h14] at hc
  by_cases h15 : key = str (r"trust-ad")
  · rw [if_pos h15] at hc; simp at hc
  rw [if_neg h15] at hc
  by_cases h16 : key = str (r"no-tld-query")
  · rw [if_pos h16] at hc; simp at hc
  rw [if_neg h16] at hc
  by_cases h17 : key = str (r"use-vc")
  · rw [if_pos h17] at hc; simp at hc
  rw [if_neg h17] at hc
  simp at hc

/-- The `options` loop never returns `ExtraData`: the source's third-fragment
check is unreachable under `splitn(2, ':')`. -/
theorem processOptions_no_extra : ∀ (ws : List (List Nat)) (cfg : Config) (line l : Nat),
    processOptions cfg line ws ≠ .error (.ExtraData l) := by
  intro ws
  induction ws with
  | nil => intro cfg line l; simp [processOptions]
  | cons w ws ih =>
    intro cfg line l
    simp only [processOptions]
    cases h : applyOption cfg line (splitFirst 58 w).1 (splitFirst 58 w).2 with
    | ok cfg2 => exact ih cfg2 line l
    | error e =>
      intro hc
      injection hc with he
      exact applyOption_no_extra cfg line _ _ l (he ▸ h)

/-! ## Claim theorems -/

/-- Claim C1.  The claim says a sortlist mask whose 32 bits are not a contiguous
left-aligned run of set bits yields `InvalidIp`.  The code does not enforce
this: its "valid mask" check folds the address octets and tests the always-zero
`value & !value`, so the non-contiguous mask `255.0.255.0` is accepted and the
parse succeeds. -/
theorem sortlist_noncontiguous_mask_accepted :
    parse (str (r"sortlist 1.2.3.4/255.0.255.0")) =
      .ok { Config.default with sortlist := [.V4 ⟨1, 2, 3, 4⟩ ⟨255, 0, 255, 0⟩] } := by
  rfl

/-- Claim C2, counterexample.  The claim says the bare token `ndots` (no colon)
yields `InvalidOptionValue`; the code instead falls through the `(key, Some x)`
match arms to the catch-all and returns `InvalidOption`. -/
theorem options_bare_ndots_counterexample :
    parse (str (r"options ndots")) = .error (.InvalidOption 0) ∧
      (Except.error (ParseError.InvalidOption 0) : Except ParseError Config) ≠
        .error (.InvalidOptionValue 0) :=
  ⟨rfl, by simp⟩

/-- Claim C2, amended.  For the `ndots`/`timeout`/`attempts` options keys: a
value that is present but does not parse as an unsigned integer yields
`InvalidOptionValue` with the line's 0-based index, while a missing value (no
colon in the token) yields `InvalidOption`; in particular `options ndots:abc`
yields `InvalidOptionValue` and bare `options ndots` yields `InvalidOption`. -/
theorem options_numeric_value_errors :
    (∀ (cfg : Config) (line : Nat) (x : List Nat) (ws : List (List Nat)),
      parseUnsigned x = none →
        processOptions cfg line ((str (r"ndots") ++ 58 :: x) :: ws) =
            .error (.InvalidOptionValue line) ∧
          processOptions cfg line ((str (r"timeout") ++ 58 :: x) :: ws) =
            .error (.InvalidOptionValue line) ∧
          processOptions cfg line ((str (r"attempts") ++ 58 :: x) :: ws) =
            .error (.InvalidOptionValue line)) ∧
    (∀ (cfg : Config) (line : Nat) (ws : List (List Nat)),
      processOptions cfg line (str (r"ndots") :: ws) = .error (.InvalidOption line) ∧
        processOptions cfg line (str (r"timeout") :: ws) = .error (.InvalidOption line) ∧
        processOptions cfg line (str (r"attempts") :: ws) = .error (.InvalidOption line)) ∧
    parse (str (r"options ndots:abc")) = .error (.InvalidOptionValue 0) ∧
    parse (str (r"options ndots")) = .error (.InvalidOption 0) := by
  refine ⟨?_, fun cfg line ws => ⟨rfl, rfl, rfl⟩, rfl, rfl⟩
  intro cfg line x ws h
  have hn : applyOption cfg line (str (r"ndots")) (some x) =
      (match parseUnsigned x with
       | some n => Except.ok { cfg with ndots := n }
       | none => .error (.InvalidOptionValue line)) := rfl
  have ht : applyOption cfg line (str (r"timeout")) (some x) =
      (match parseUnsigned x with
       | some n => Except.ok { cfg with timeout := n }
       | none => .error (.InvalidOptionValue line)) := rfl
  have ha : applyOption cfg line (str (r"attempts")) (some x) =
      (match parseUnsigned x with
       | some n => Except.ok { cfg with attempts := n }
       | none => .error (.InvalidOptionValue line)) := rfl
  refine ⟨?_, ?_, ?_⟩
  · simp only [processOptions, splitFirst_append 58 (str (r"ndots")) x (by decide), hn, h]
  · simp only [processOptions, splitFirst_append 58 (str (r"timeout")) x (by decide), ht, h]
  · simp only [processOptions, splitFirst_append 58 (str (r"attempts")) x (by decide), ha, h]

/-- Witness for the amended C2 theorem at a concrete input. -/
theorem options_numeric_value_errors_witness :
    parseUnsigned (str (r"abc")) = none ∧
      processOptions Config.default 0 ((str (r"ndots") ++ 58 :: str (r"abc")) :: []) =
        .error (.InvalidOptionValue 0) :=
  ⟨by decide,
   (options_numeric_value_errors.1 Config.default 0 (str (r"abc")) [] (by decide)).1⟩

/-- Claim C3, counterexample.  The claim says an options token containing a
second `:` yields `ExtraData`; the code accepts `debug:x:y` (key `debug`,
value `x:y`) and the parse succeeds. -/
theorem options_second_colon_counterexample :
    parse (str (r"options debug:x:y")) = .ok { Config.default with debug := true } ∧
      (Except.ok { Config.default with debug := true } : Except ParseError Config) ≠
        .error (.ExtraData 0) :=
  ⟨rfl, by simp⟩

/-- Claim C3, amended.  Each options token is split at the first `:` into a key
and an optional value, the value being everything after that first `:`
(further `:` characters included); the options sub-parser never returns
`ExtraData` (the source's second-colon check is unreachable under
`splitn(2, ':')`). -/
theorem options_colon_split_behavior :
    (∀ (cfg : Config) (line : Nat) (k v : List Nat) (ws : List (List Nat)),
      58 ∉ k →
        processOptions cfg line ((k ++ 58 :: v) :: ws) =
          match applyOption cfg line k (some v) with
          | .ok c => processOptions c line ws
          | .error e => .error e) ∧
    ∀ (ws : List (List Nat)) (cfg : Config) (line l : Nat),
      processOptions cfg line ws ≠ .error (.ExtraData l) := by
  constructor
  · intro cfg line k v ws hk
    simp only [processOptions, splitFirst_append 58 k v hk]
  · exact processOptions_no_extra

/-- Witness for the amended C3 theorem at a concrete input. -/
theorem options_colon_split_behavior_witness :
    (58 ∉ str (r"debug")) ∧
      processOptions Config.default 0 ((str (r"debug") ++ 58 :: str (r"x:y")) :: []) =
        match applyOption Config.default 0 (str (r"debug")) (some (str (r"x:y"))) with
        | .ok c => processOptions c 0 []
        | .error e => .error e :=
  ⟨by decide,
   options_colon_split_behavior.1 Config.default 0 (str (r"debug")) (str (r"x:y")) []
     (by decide)⟩

/-- Claim C4.  For a sortlist token that is a dotted IPv4 literal, not
`0.0.0.0`, with no `/MASK` part, the inferred mask is determined by counting
the trailing zero octets and mapping the count through
`{0 -> /32, 1 -> /24, 2 -> /16, 3 -> /8}`; and the spec's example line parses
to the stated two networks. -/
theorem sortlist_mask_inference :
    (∀ (s : List Nat) (ip : Ipv4Addr),
      parseIpv4 s = some ip → ip.is_unspecified = false → 47 ∉ s →
        ip_v4_netw s = some (.V4 ip (specMaskOfCount (specTrailingZeroOctets ip)))) ∧
    parse (str (r"sortlist 130.155.160.0/255.255.240.0 130.155.0.0")) =
      .ok { Config.default with
            sortlist := [.V4 ⟨130, 155, 160, 0⟩ ⟨255, 255, 240, 0⟩,
              .V4 ⟨130, 155, 0, 0⟩ ⟨255, 255, 0, 0⟩] } := by
  refine ⟨?_, rfl⟩
  intro s ip hp hun h47
  simp only [ip_v4_netw, splitFirst_not_mem 47 s h47, hp, hun, Bool.false_eq_true,
    if_false]
  by_cases h3 : ip.o3 = 0 <;> by_cases h2 : ip.o2 = 0 <;> by_cases h1 : ip.o1 = 0 <;>
    simp [h1, h2, h3, specTrailingZeroOctets, specMaskOfCount]

/-- Witness for the C4 theorem at a concrete input. -/
theorem sortlist_mask_inference_witness :
    parseIpv4 (str (r"10.1.0.0")) = some ⟨10, 1, 0, 0⟩ ∧
      ip_v4_netw (str (r"10.1.0.0")) =
        some (.V4 ⟨10, 1, 0, 0⟩ (specMaskOfCount (specTrailingZeroOctets ⟨10, 1, 0, 0⟩))) :=
  ⟨by decide,
   sortlist_mask_inference.1 (str (r"10.1.0.0")) ⟨10, 1, 0, 0⟩ (by decide) (by decide)
     (by decide)⟩

/-- Claim C5.  A sortlist token whose address part is `0.0.0.0`, with or
without an explicit mask, fails with `InvalidIp` at that line; in particular
`sortlist 0.0.0.0` and `sortlist 0.0.0.0/255.0.0.0` both fail with
`InvalidIp`. -/
theorem sortlist_zero_address_rejected :
    (∀ (cfg : Config) (line : Nat) (ws : List (List Nat)),
      processSortlist cfg line (str (r"0.0.0.0") :: ws) = .error (.InvalidIp line)) ∧
    (∀ (cfg : Config) (line : Nat) (m : List Nat) (ws : List (List Nat)),
      processSortlist cfg line ((str (r"0.0.0.0") ++ 47 :: m) :: ws) =
        .error (.InvalidIp line)) ∧
    parse (str (r"sortlist 0.0.0.0")) = .error (.InvalidIp 0) ∧
    parse (str (r"sortlist 0.0.0.0/255.0.0.0")) = .error (.InvalidIp 0) :=
  ⟨fun cfg line ws => rfl, fun cfg line m ws => rfl, rfl, rfl⟩

/-- Claim C6.  A `search` directive replaces the search list wholesale with that
line's tokens in order; with zero tokens it sets the list to empty, so
`search a b` followed by a bare `search` yields an empty search list. -/
theorem search_replaces_wholesale :
    (∀ (cfg : Config) (line : Nat) (ws : List (List Nat)),
      processDirective cfg line (str (r"search")) ws = .ok { cfg with search := ws }) ∧
    parse (str (r"search a b") ++ 10 :: str (r"search")) =
      .ok { Config.default with search := [] } :=
  ⟨fun cfg line ws => rfl, rfl⟩

/-- Claim C7.  A `lookup` directive always succeeds, mapping `file` to `File`,
`bind` to `Bind` and anything else to `Extra` verbatim, appended in order; a
`family` directive maps only `inet4`/`inet6` and fails with `InvalidValue` at
that line on any other token. -/
theorem lookup_permissive_family_strict :
    (∀ (cfg : Config) (line : Nat) (ws : List (List Nat)),
      processDirective cfg line (str (r"lookup")) ws =
        .ok { cfg with lookup := cfg.lookup ++ ws.map (fun w =>
          if w = str (r"file") then Lookup.File
          else if w = str (r"bind") then Lookup.Bind
          else Lookup.Extra w) }) ∧
    (∀ (cfg : Config) (line : Nat) (ws : List (List Nat)),
      (∀ w ∈ ws, w = str (r"inet4") ∨ w = str (r"inet6")) →
        processDirective cfg line (str (r"family")) ws =
          .ok { cfg with family := cfg.family ++ ws.map (fun w =>
            if w = str (r"inet4") then Family.Inet4 else Family.Inet6) }) ∧
    ∀ (cfg : Config) (line : Nat) (pre : List (List Nat)) (w : List Nat)
      (post : List (List Nat)),
      (∀ u ∈ pre, u = str (r"inet4") ∨ u = str (r"inet6")) →
      w ≠ str (r"inet4") → w ≠ str (r"inet6") →
        processDirective cfg line (str (r"family")) (pre ++ w :: post) =
          .error (.InvalidValue line) := by
  refine ⟨?_, ?_, ?_⟩
  · intro cfg line ws
    show Except.ok (processLookup cfg ws) = _
    rw [processLookup_spec]
  · intro cfg line ws h
    show processFamily cfg line ws = _
    rw [processFamily_ok ws cfg line h]
  · intro cfg line pre w post h h4 h6
    show processFamily cfg line (pre ++ w :: post) = _
    rw [processFamily_err pre cfg line w post h h4 h6]

/-- Witness for the C7 theorem at concrete inputs. -/
theorem lookup_permissive_family_strict_witness :
    processDirective Config.default 0 (str (r"family")) [str (r"inet4")] =
        .ok { Config.default with family := [Family.Inet4] } ∧
      processDirective Config.default 0 (str (r"family")) ([] ++ str (r"x") :: []) =
        .error (.InvalidValue 0) :=
  ⟨lookup_permissive_family_strict.2.1 Config.default 0 [str (r"inet4")] (by decide),
   lookup_permissive_family_strict.2.2 Config.default 0 [] (str (r"x")) [] (by decide)
     (by decide) (by decide)⟩

/-- Claim C8.  A line whose first non-tab, non-space byte is `;` or `#` is
skipped with no UTF-8 validation and no effect on the config, even when it
holds invalid UTF-8 bytes; any other line that is not valid UTF-8 fails with
`InvalidUtf8` carrying the line's 0-based index. -/
theorem comment_lines_skip_utf8_validation :
    (∀ (cfg : Config) (line : Nat) (content : List Nat),
      isCommentLine content = true → processLine cfg line content = .ok cfg) ∧
    (∀ (cfg : Config) (line : Nat) (content : List Nat),
      isCommentLine content = false → decodeUtf8 content = none →
        processLine cfg line content = .error (.InvalidUtf8 line)) ∧
    parse ([35, 255, 10] ++ [255]) = .error (.InvalidUtf8 1) ∧
    parse [35, 255] = .ok Config.default := by
  refine ⟨?_, ?_, rfl, rfl⟩
  · intro cfg line content h
    simp [processLine, h]
  · intro cfg line content h1 h2
    simp [processLine, h1, h2]

/-- Witness for the C8 theorem at concrete inputs (a comment line holding the
invalid byte 255, and a bare invalid byte as its own line). -/
theorem comment_lines_skip_utf8_validation_witness :
    isCommentLine [35, 255] = true ∧
      processLine Config.default 0 [35, 255] = .ok Config.default ∧
      isCommentLine [255] = false ∧ decodeUtf8 [255] = none ∧
      processLine Config.default 1 [255] = .error (.InvalidUtf8 1) :=
  ⟨by decide,
   comment_lines_skip_utf8_validation.1 Config.default 0 [35, 255] (by decide),
   by decide, by decide,
   comment_lines_skip_utf8_validation.2.1 Config.default 1 [255] (by decide) (by decide)⟩

/-- Claim C9.  Appending a single newline byte to any buffer leaves the parse
result unchanged, and parsing the empty buffer yields the default config. -/
theorem parse_trailing_newline_invariant :
    (∀ bs : List Nat, parse (bs ++ [10]) = parse bs) ∧
      parse ([] : List Nat) = .ok Config.default := by
  refine ⟨?_, rfl⟩
  intro bs
  show parseLines Config.default 0 (splitLines (bs ++ [10])) =
    parseLines Config.default 0 (splitLines bs)
  rw [splitLines_append_newline, parseLines_append_nil]

/-- Claim C10.  An IPv6 sortlist token with no mask (the unspecified `::`
included: the all-zero rejection is IPv4-only) is accepted with the all-ones
128-bit mask, and an explicit IPv6 mask is accepted verbatim whenever it parses
as an IPv6 literal, with no structural validation. -/
theorem ipv6_sortlist_permissive :
    (∀ (s : List Nat) (ip : Ipv6Addr),
      parseIpv6 s = some ip → 47 ∉ s →
        ip_v6_netw s =
          some (.V6 ip ⟨65535, 65535, 65535, 65535, 65535, 65535, 65535, 65535⟩)) ∧
    (∀ (a m : List Nat) (ipa ipm : Ipv6Addr),
      parseIpv6 a = some ipa → parseIpv6 m = some ipm → 47 ∉ a →
        ip_v6_netw (a ++ 47 :: m) = some (.V6 ipa ipm)) ∧
    parse (str (r"sortlist ::")) =
      .ok { Config.default with
            sortlist := [.V6 ⟨0, 0, 0, 0, 0, 0, 0, 0⟩
              ⟨65535, 65535, 65535, 65535, 65535, 65535, 65535, 65535⟩] } := by
  refine ⟨?_, ?_, rfl⟩
  · intro s ip hp h47
    simp only [ip_v6_netw, splitFirst_not_mem 47 s h47, hp]
  · intro a m ipa ipm hpa hpm h47
    simp only [ip_v6_netw, splitFirst_append 47 a m h47, hpa, hpm]

/-- Witness for the C10 theorem at concrete inputs. -/
theorem ipv6_sortlist_permissive_witness :
    parseIpv6 (str (r"::1")) = some ⟨0, 0, 0, 0, 0, 0, 0, 1⟩ ∧
      ip_v6_netw (str (r"::1")) =
        some (.V6 ⟨0, 0, 0, 0, 0, 0, 0, 1⟩
          ⟨65535, 65535, 65535, 65535, 65535, 65535, 65535, 65535⟩) ∧
      ip_v6_netw (str (r"::1") ++ 47 :: str (r"ff00::")) =
        some (.V6 ⟨0, 0, 0, 0, 0, 0, 0, 1⟩ ⟨65280, 0, 0, 0, 0, 0, 0, 0⟩) :=
  ⟨by decide,
   ipv6_sortlist_permissive.1 (str (r"::1")) ⟨0, 0, 0, 0, 0, 0, 0, 1⟩ (by decide) (by decide),
   ipv6_sortlist_permissive.2.1 (str (r"::1")) (str (r"ff00::")) ⟨0, 0, 0, 0, 0, 0, 0, 1⟩
     ⟨65280, 0, 0, 0, 0, 0, 0, 0⟩ (by decide) (by decide) (by decide)⟩

end ResolvConf
